import Mathlib

/-!
Verification development for the daily-journal pipeline: a shallow embedding
of the work-item categorizer, the journal-entry enhancer, the mood heuristic,
the markdown renderer, the file store and the streak computation, together
with theorems settling the specified properties.

Modelling conventions:
- JS strings become Lean String values; the ASCII-only toLowerCase of the
  code is modelled by mapping Char.toLower over the characters.
- The compiled sources write the two-character escape backslash-backslash-n
  inside template literals, so at runtime those joins insert the literal
  characters backslash and n, not a newline; the embedding reproduces that
  faithfully with the Lean escape for a literal backslash followed by n.
- The filesystem directory is modelled as an association list from file
  name to file content; writing a file replaces any entry with that name.
- The wall-clock reads (current instant for the markdown footer, current
  time for the streak computation) and the date parser of the host
  environment are passed in as explicit parameters.
-/

/-- Fields bag of a raw provider work item, keyed in the source by the fixed
field names System.Title, System.State, System.WorkItemType, System.Tags.
Tags may be absent, hence Option. -/
structure WorkItemFields where
  title : String
  state : String
  workItemType : String
  tags : Option String
deriving DecidableEq

/-- Raw work item as consumed from the provider: an id plus the fields bag. -/
structure RawWorkItem where
  id : Int
  fields : WorkItemFields
deriving DecidableEq

/-- Categorized work item as built by categorizeWorkItems. -/
structure WorkItem where
  id : Int
  title : String
  state : String
  workItemType : String
  tags : Option String
deriving DecidableEq

/-- The three buckets of categorized work items. The source field named open
is a reserved word in Lean and is rendered here as openItems. -/
structure Categorized where
  inProgress : List WorkItem
  openItems : List WorkItem
  pending : List WorkItem
deriving DecidableEq

/-- Meeting record shape: title, startTime, endTime, attendeeCount, type.
There is no field named time. -/
structure Meeting where
  title : String
  startTime : String
  endTime : String
  attendeeCount : Nat
  type : String
deriving DecidableEq

/-- Pull request record shape: id, title, status, reviewers, createdDate,
repository. -/
structure PullRequest where
  id : Int
  title : String
  status : String
  reviewers : List String
  createdDate : String
  repository : String
deriving DecidableEq

/-- Structured journal entry. -/
structure JournalEntry where
  date : String
  dayOfWeek : String
  workItems : Categorized
  pullRequests : List PullRequest
  meetings : List Meeting
  accomplishments : List String
  challenges : List String
  nextSteps : List String
  mood : String
  notes : String
deriving DecidableEq

/-- The raw data object passed to enhanceJournalEntry alongside the entry. -/
structure RawData where
  workItems : List RawWorkItem
  meetings : List Meeting
  pullRequests : List PullRequest
deriving DecidableEq

/-- Embedding of the JS toLowerCase call; ASCII letters are lowered, other
characters kept, matching the states the pipeline compares against. -/
def jsToLowerCase (s : String) : String :=
  String.mk (s.toList.map Char.toLower)

/-- Conversion of a raw item to the categorized WorkItem record, as done at
the top of the forEach body in categorizeWorkItems. -/
def toWorkItem (item : RawWorkItem) : WorkItem :=
  { id := item.id
    title := item.fields.title
    state := item.fields.state
    workItemType := item.fields.workItemType
    tags := item.fields.tags }

/-- One step of the forEach loop in categorizeWorkItems: switch on the
lowercased state and push into the matching bucket; unmatched states fall
through without touching any bucket. -/
def categorizeStep (categorized : Categorized) (item : RawWorkItem) : Categorized :=
  let workItem := toWorkItem item
  let s := jsToLowerCase item.fields.state
  if s == "in progress" || s == "active" then
    { categorized with inProgress := categorized.inProgress ++ [workItem] }
  else if s == "pending" then
    { categorized with pending := categorized.pending ++ [workItem] }
  else if s == "open" || s == "new" then
    { categorized with openItems := categorized.openItems ++ [workItem] }
  else
    categorized

/-- DailyJournalGenerator.categorizeWorkItems: fold of the switch body over
the input order, starting from three empty buckets. -/
def categorizeWorkItems (workItems : List RawWorkItem) : Categorized :=
  workItems.foldl categorizeStep ⟨[], [], []⟩

/-- Predicate for the inProgress bucket: lowercased state is in progress or
active. -/
def inProgressPred (item : RawWorkItem) : Bool :=
  jsToLowerCase item.fields.state == "in progress"
    || jsToLowerCase item.fields.state == "active"

/-- Predicate for the pending bucket: lowercased state is pending. -/
def pendingPred (item : RawWorkItem) : Bool :=
  jsToLowerCase item.fields.state == "pending"

/-- Predicate for the open bucket: lowercased state is open or new. -/
def openPred (item : RawWorkItem) : Bool :=
  jsToLowerCase item.fields.state == "open"
    || jsToLowerCase item.fields.state == "new"

/-- An item is recognized when some bucket accepts it. -/
def recognizedPred (item : RawWorkItem) : Bool :=
  inProgressPred item || pendingPred item || openPred item

/-- MCPJournalIntegrator.calculateMood: thresholds on the raw work-item and
meeting counts, ordered, first match wins. -/
def calculateMood (workItems : List RawWorkItem) (meetings : List Meeting) : String :=
  let workloadScore := workItems.length
  let meetingLoad := meetings.length
  if workloadScore < 3 ∧ meetingLoad < 4 then "relaxed"
  else if workloadScore < 5 ∧ meetingLoad < 6 then "productive"
  else if workloadScore < 8 then "busy"
  else "overwhelmed"

/-- Spec-side restatement of the mood policy table over raw counts, used to
compare the code against the specification wording. -/
def moodPolicySpec (workload meetings : Nat) : String :=
  if workload < 3 ∧ meetings < 4 then "relaxed"
  else if workload < 5 ∧ meetings < 6 then "productive"
  else if workload < 8 then "busy"
  else "overwhelmed"

/-- MCPJournalIntegrator.enhanceJournalEntry. Note that the compiled source
writes the notes separator as a double-escaped newline, so the runtime value
contains the literal characters backslash n backslash n; the Lean string
below reproduces exactly those four characters. -/
def enhanceJournalEntry (entry : JournalEntry) (data : RawData) : JournalEntry :=
  let contextualAccomplishments : List String :=
    (if data.meetings.any (fun m => m.type == "review") then
      ["Participated in architecture review meeting"] else [])
    ++ (if data.pullRequests.length > 0 then
      ["Created/reviewed " ++ toString data.pullRequests.length ++ " pull request(s)"] else [])
  let prioritizedNextSteps : List String :=
    entry.nextSteps
      ++ ["Review pending EUDB compliance requirements",
          "Follow up on architecture review feedback"]
  let totalWorkItems := data.workItems.length
  let activeItems :=
    (data.workItems.filter (fun item =>
      item.fields.state == "In Progress" || item.fields.state == "Active")).length
  let productivityNote :=
    "Productivity Overview: " ++ toString activeItems ++ "/" ++ toString totalWorkItems
      ++ " work items active, " ++ toString data.meetings.length ++ " meetings scheduled"
  { entry with
      accomplishments := entry.accomplishments ++ contextualAccomplishments
      nextSteps := prioritizedNextSteps
      notes := productivityNote ++ "\\n\\n" ++ entry.notes
      mood := calculateMood data.workItems data.meetings }

/-- A sample raw work item used for concrete evaluations. -/
def demoItem : RawWorkItem :=
  { id := 1, fields := { title := "X", state := "Open", workItemType := "Task", tags := none } }

/-- A sample raw work item in state In Progress. -/
def demoItemInProgress : RawWorkItem :=
  { id := 2, fields := { title := "A", state := "In Progress", workItemType := "Feature", tags := none } }

/-- A sample meeting used for concrete evaluations. -/
def demoMeeting : Meeting :=
  { title := "Daily Standup - ACS Team", startTime := "09:00 AM", endTime := "09:30 AM"
    attendeeCount := 5, type := "meeting" }

/-- A plain entry with empty collections used for concrete evaluations. -/
def demoEntry : JournalEntry :=
  { date := "2025-10-11", dayOfWeek := "Saturday"
    workItems := ⟨[], [], []⟩
    pullRequests := [], meetings := []
    accomplishments := [], challenges := [], nextSteps := []
    mood := "productive", notes := "prior notes" }

/-- Raw data with all three collections empty. -/
def demoData : RawData := ⟨[], [], []⟩

/-- Lowercased in-progress labels and the pending label are distinct. -/
theorem lower_excl_ip_pending (s : String) :
    (s == "in progress" || s == "active") = true → (s == "pending") = true → False := by
  intro h1 h2
  simp only [Bool.or_eq_true, beq_iff_eq] at h1 h2
  rcases h1 with rfl | rfl <;> exact absurd h2 (by decide)

/-- Lowercased in-progress labels and the open labels are distinct. -/
theorem lower_excl_ip_open (s : String) :
    (s == "in progress" || s == "active") = true → (s == "open" || s == "new") = true → False := by
  intro h1 h2
  simp only [Bool.or_eq_true, beq_iff_eq] at h1 h2
  rcases h1 with rfl | rfl <;> rcases h2 with h2 | h2 <;> exact absurd h2 (by decide)

/-- The pending label and the open labels are distinct. -/
theorem lower_excl_pending_open (s : String) :
    (s == "pending") = true → (s == "open" || s == "new") = true → False := by
  intro h1 h2
  simp only [Bool.or_eq_true, beq_iff_eq] at h1 h2
  rcases h1 with rfl
  rcases h2 with h2 | h2 <;> exact absurd h2 (by decide)

/-- An item accepted by the inProgress bucket is rejected by pending. -/
theorem not_pending_of_inProgress (i : RawWorkItem) (h : inProgressPred i = true) :
    pendingPred i = false :=
  Bool.eq_false_iff.mpr (fun hp => lower_excl_ip_pending _ h hp)

/-- An item accepted by the inProgress bucket is rejected by open. -/
theorem not_open_of_inProgress (i : RawWorkItem) (h : inProgressPred i = true) :
    openPred i = false :=
  Bool.eq_false_iff.mpr (fun hp => lower_excl_ip_open _ h hp)

/-- An item accepted by the pending bucket is rejected by open. -/
theorem not_open_of_pending (i : RawWorkItem) (h : pendingPred i = true) :
    openPred i = false :=
  Bool.eq_false_iff.mpr (fun hp => lower_excl_pending_open _ h hp)

/-- Step lemma: an in-progress item is appended to the inProgress bucket. -/
theorem categorizeStep_of_inProgress (acc : Categorized) (i : RawWorkItem)
    (h : inProgressPred i = true) :
    categorizeStep acc i = { acc with inProgress := acc.inProgress ++ [toWorkItem i] } := by
  have h' : (jsToLowerCase i.fields.state == "in progress"
      || jsToLowerCase i.fields.state == "active") = true := h
  simp [categorizeStep, h']

/-- Step lemma: a pending item is appended to the pending bucket. -/
theorem categorizeStep_of_pending (acc : Categorized) (i : RawWorkItem)
    (h1 : inProgressPred i = false) (h2 : pendingPred i = true) :
    categorizeStep acc i = { acc with pending := acc.pending ++ [toWorkItem i] } := by
  have h1' : (jsToLowerCase i.fields.state == "in progress"
      || jsToLowerCase i.fields.state == "active") = false := h1
  have h2' : (jsToLowerCase i.fields.state == "pending") = true := h2
  simp [categorizeStep, h1', h2']

/-- Step lemma: an open item is appended to the open bucket. -/
theorem categorizeStep_of_open (acc : Categorized) (i : RawWorkItem)
    (h1 : inProgressPred i = false) (h2 : pendingPred i = false) (h3 : openPred i = true) :
    categorizeStep acc i = { acc with openItems := acc.openItems ++ [toWorkItem i] } := by
  have h1' : (jsToLowerCase i.fields.state == "in progress"
      || jsToLowerCase i.fields.state == "active") = false := h1
  have h2' : (jsToLowerCase i.fields.state == "pending") = false := h2
  have h3' : (jsToLowerCase i.fields.state == "open"
      || jsToLowerCase i.fields.state == "new") = true := h3
  simp [categorizeStep, h1', h2', h3']

/-- Step lemma: an unrecognized item leaves every bucket unchanged. -/
theorem categorizeStep_of_none (acc : Categorized) (i : RawWorkItem)
    (h1 : inProgressPred i = false) (h2 : pendingPred i = false) (h3 : openPred i = false) :
    categorizeStep acc i = acc := by
  have h1' : (jsToLowerCase i.fields.state == "in progress"
      || jsToLowerCase i.fields.state == "active") = false := h1
  have h2' : (jsToLowerCase i.fields.state == "pending") = false := h2
  have h3' : (jsToLowerCase i.fields.state == "open"
      || jsToLowerCase i.fields.state == "new") = false := h3
  simp [categorizeStep, h1', h2', h3']

/-- The categorizing fold, started from an arbitrary accumulator, appends to
each bucket exactly the items its predicate selects, in input order. -/
theorem categorize_foldl (ws : List RawWorkItem) (acc : Categorized) :
    ws.foldl categorizeStep acc =
      ⟨acc.inProgress ++ (ws.filter inProgressPred).map toWorkItem,
       acc.openItems ++ (ws.filter openPred).map toWorkItem,
       acc.pending ++ (ws.filter pendingPred).map toWorkItem⟩ := by
  induction ws generalizing acc with
  | nil => simp
  | cons i ws ih =>
    rw [List.foldl_cons, ih]
    cases hip : inProgressPred i with
    | true =>
      have hpe := not_pending_of_inProgress i hip
      have hop := not_open_of_inProgress i hip
      rw [categorizeStep_of_inProgress acc i hip]
      simp [List.filter_cons, hip, hpe, hop]
    | false =>
      cases hpe : pendingPred i with
      | true =>
        have hop := not_open_of_pending i hpe
        rw [categorizeStep_of_pending acc i hip hpe]
        simp [List.filter_cons, hip, hpe, hop]
      | false =>
        cases hop : openPred i with
        | true =>
          rw [categorizeStep_of_open acc i hip hpe hop]
          simp [List.filter_cons, hip, hpe, hop]
        | false =>
          rw [categorizeStep_of_none acc i hip hpe hop]
          simp [List.filter_cons, hip, hpe, hop]

/-- Bucket characterization of categorizeWorkItems: each bucket is the
filter of the input by that bucket predicate, mapped to WorkItem records. -/
theorem categorize_buckets (items : List RawWorkItem) :
    (categorizeWorkItems items).inProgress = (items.filter inProgressPred).map toWorkItem
    ∧ (categorizeWorkItems items).openItems = (items.filter openPred).map toWorkItem
    ∧ (categorizeWorkItems items).pending = (items.filter pendingPred).map toWorkItem := by
  unfold categorizeWorkItems
  rw [categorize_foldl]
  exact ⟨rfl, rfl, rfl⟩

/-- Sum of the three filtered bucket lengths equals the count of recognized
items. -/
theorem sum_filter_lengths (items : List RawWorkItem) :
    (items.filter inProgressPred).length + (items.filter openPred).length
      + (items.filter pendingPred).length = items.countP recognizedPred := by
  induction items with
  | nil => simp
  | cons i ws ih =>
    cases hip : inProgressPred i with
    | true =>
      have hpe := not_pending_of_inProgress i hip
      have hop := not_open_of_inProgress i hip
      simp [List.filter_cons, List.countP_cons, hip, hpe, hop, recognizedPred]
      omega
    | false =>
      cases hpe : pendingPred i with
      | true =>
        have hop := not_open_of_pending i hpe
        simp [List.filter_cons, List.countP_cons, hip, hpe, hop, recognizedPred]
        omega
      | false =>
        cases hop : openPred i with
        | true =>
          simp [List.filter_cons, List.countP_cons, hip, hpe, hop, recognizedPred]
          omega
        | false =>
          simp [List.filter_cons, List.countP_cons, hip, hpe, hop, recognizedPred]
          omega

/-- The three buckets are pairwise disjoint: a categorized item carries its
state, and the lowercased label sets of the buckets do not overlap. -/
theorem buckets_disjoint (items : List RawWorkItem) :
    (∀ w ∈ (categorizeWorkItems items).inProgress,
       w ∉ (categorizeWorkItems items).openItems ∧ w ∉ (categorizeWorkItems items).pending)
    ∧ (∀ w ∈ (categorizeWorkItems items).openItems, w ∉ (categorizeWorkItems items).pending) := by
  obtain ⟨h1, h2, h3⟩ := categorize_buckets items
  rw [h1, h2, h3]
  constructor
  · intro w hw
    rcases List.mem_map.mp hw with ⟨i, hi, rfl⟩
    rcases List.mem_filter.mp hi with ⟨_, hiP⟩
    constructor
    · intro hcon
      rcases List.mem_map.mp hcon with ⟨j, hj, hji⟩
      rcases List.mem_filter.mp hj with ⟨_, hjP⟩
      have hst : j.fields.state = i.fields.state := congrArg WorkItem.state hji
      have hjP' : openPred i = true := by
        unfold openPred
        unfold openPred at hjP
        rw [hst] at hjP
        exact hjP
      exact lower_excl_ip_open (jsToLowerCase i.fields.state) hiP hjP'
    · intro hcon
      rcases List.mem_map.mp hcon with ⟨j, hj, hji⟩
      rcases List.mem_filter.mp hj with ⟨_, hjP⟩
      have hst : j.fields.state = i.fields.state := congrArg WorkItem.state hji
      have hjP' : pendingPred i = true := by
        unfold pendingPred
        unfold pendingPred at hjP
        rw [hst] at hjP
        exact hjP
      exact lower_excl_ip_pending (jsToLowerCase i.fields.state) hiP hjP'
  · intro w hw
    rcases List.mem_map.mp hw with ⟨i, hi, rfl⟩
    rcases List.mem_filter.mp hi with ⟨_, hiP⟩
    intro hcon
    rcases List.mem_map.mp hcon with ⟨j, hj, hji⟩
    rcases List.mem_filter.mp hj with ⟨_, hjP⟩
    have hst : j.fields.state = i.fields.state := congrArg WorkItem.state hji
    have hjP' : pendingPred i = true := by
      unfold pendingPred
      unfold pendingPred at hjP
      rw [hst] at hjP
      exact hjP
    exact lower_excl_pending_open (jsToLowerCase i.fields.state) hjP' hiP

/-- Claim C1: categorizeWorkItems maps each raw item case-insensitively on
its state: in progress or active to the inProgress bucket, pending to the
pending bucket, open or new to the open bucket; items with any other state
are dropped from all buckets, and each bucket keeps the relative input
order, being exactly the order-preserving filter of the input. -/
theorem claim_C1 (items : List RawWorkItem) :
    (categorizeWorkItems items).inProgress = (items.filter inProgressPred).map toWorkItem
    ∧ (categorizeWorkItems items).openItems = (items.filter openPred).map toWorkItem
    ∧ (categorizeWorkItems items).pending = (items.filter pendingPred).map toWorkItem :=
  categorize_buckets items

/-- Claim C2 counterexample: the claim speaks of four recognized labels, but
no four-element label set can characterize when classification loses no
item, because the code recognizes the five lowercased labels in progress,
active, pending, open and new, each witnessed here by a singleton input that
is classified without loss. -/
theorem claim_C2_counterexample :
    ¬ ∃ S : Finset String, S.card = 4 ∧
      ∀ items : List RawWorkItem,
        ((categorizeWorkItems items).inProgress.length
          + (categorizeWorkItems items).openItems.length
          + (categorizeWorkItems items).pending.length = items.length
         ↔ ∀ item ∈ items, jsToLowerCase item.fields.state ∈ S) := by
  rintro ⟨S, hcard, h⟩
  have key : ∀ st : String,
      ((categorizeWorkItems [⟨0, ⟨"t", st, "ty", none⟩⟩]).inProgress.length
        + (categorizeWorkItems [⟨0, ⟨"t", st, "ty", none⟩⟩]).openItems.length
        + (categorizeWorkItems [⟨0, ⟨"t", st, "ty", none⟩⟩]).pending.length = 1) →
      jsToLowerCase st ∈ S := by
    intro st hsum
    have hall := (h [⟨0, ⟨"t", st, "ty", none⟩⟩]).mp (by simpa using hsum)
    simpa using hall ⟨0, ⟨"t", st, "ty", none⟩⟩ (by simp)
  have h1 : "in progress" ∈ S := by
    have := key "in progress" (by decide)
    rwa [show jsToLowerCase "in progress" = "in progress" from by decide] at this
  have h2 : "active" ∈ S := by
    have := key "active" (by decide)
    rwa [show jsToLowerCase "active" = "active" from by decide] at this
  have h3 : "pending" ∈ S := by
    have := key "pending" (by decide)
    rwa [show jsToLowerCase "pending" = "pending" from by decide] at this
  have h4 : "open" ∈ S := by
    have := key "open" (by decide)
    rwa [show jsToLowerCase "open" = "open" from by decide] at this
  have h5 : "new" ∈ S := by
    have := key "new" (by decide)
    rwa [show jsToLowerCase "new" = "new" from by decide] at this
  have hsub : ({"in progress", "active", "pending", "open", "new"} : Finset String) ⊆ S := by
    simp only [Finset.insert_subset_iff, Finset.singleton_subset_iff]
    exact ⟨h1, h2, h3, h4, h5⟩
  have hle : ({"in progress", "active", "pending", "open", "new"} : Finset String).card ≤ S.card :=
    Finset.card_le_card hsub
  have hfive : ({"in progress", "active", "pending", "open", "new"} : Finset String).card = 5 := by
    decide
  omega

/-- Claim C2 (amended: the recognized label set has five members, namely in
progress, active, pending, open and new, case-insensitively): classification
partitions the input, with the bucket lengths summing to at most the input
length, equality exactly when every state is recognized, and no item in more
than one bucket. -/
theorem claim_C2 (items : List RawWorkItem) :
    ((categorizeWorkItems items).inProgress.length
      + (categorizeWorkItems items).openItems.length
      + (categorizeWorkItems items).pending.length ≤ items.length)
    ∧ ((categorizeWorkItems items).inProgress.length
        + (categorizeWorkItems items).openItems.length
        + (categorizeWorkItems items).pending.length = items.length
       ↔ ∀ item ∈ items, recognizedPred item = true)
    ∧ (∀ w ∈ (categorizeWorkItems items).inProgress,
        w ∉ (categorizeWorkItems items).openItems ∧ w ∉ (categorizeWorkItems items).pending)
    ∧ (∀ w ∈ (categorizeWorkItems items).openItems, w ∉ (categorizeWorkItems items).pending) := by
  obtain ⟨h1, h2, h3⟩ := categorize_buckets items
  refine ⟨?_, ?_, (buckets_disjoint items).1, (buckets_disjoint items).2⟩
  · rw [h1, h2, h3]
    simp only [List.length_map]
    rw [sum_filter_lengths]
    exact List.countP_le_length _
  · rw [h1, h2, h3]
    simp only [List.length_map]
    rw [sum_filter_lengths]
    exact List.countP_eq_length

/-- Witness for claim C2: in a concrete two-item input, the categorized
in-progress item is not also in the open bucket. -/
theorem claim_C2_witness :
    toWorkItem demoItemInProgress ∉ (categorizeWorkItems [demoItemInProgress, demoItem]).openItems :=
  ((claim_C2 [demoItemInProgress, demoItem]).2.2.1 (toWorkItem demoItemInProgress) (by decide)).1

/-- Claim C3: calculateMood applies the ordered first-match policy on the
raw counts: workload under 3 and meetings under 4 gives relaxed, otherwise
workload under 5 and meetings under 6 gives productive, otherwise workload
under 8 gives busy, otherwise overwhelmed; in particular counts (2,3) give
relaxed, (4,5) productive, (6,1) busy and (9,0) overwhelmed. -/
theorem claim_C3 :
    (∀ (workItems : List RawWorkItem) (meetings : List Meeting),
       calculateMood workItems meetings = moodPolicySpec workItems.length meetings.length)
    ∧ calculateMood (List.replicate 2 demoItem) (List.replicate 3 demoMeeting) = "relaxed"
    ∧ calculateMood (List.replicate 4 demoItem) (List.replicate 5 demoMeeting) = "productive"
    ∧ calculateMood (List.replicate 6 demoItem) (List.replicate 1 demoMeeting) = "busy"
    ∧ calculateMood (List.replicate 9 demoItem) [] = "overwhelmed" := by
  refine ⟨fun ws ms => rfl, ?_, ?_, ?_, ?_⟩ <;> decide

/-- Claim C6: enhanceJournalEntry is not idempotent: re-enhancing appends
the two fixed boilerplate next-step strings a second time, so they occur at
least twice in the re-enhanced nextSteps, while the mood agrees after one or
two applications with the same raw data; at a concrete entry the two results
differ. -/
theorem claim_C6 :
    (∀ (entry : JournalEntry) (data : RawData),
       (enhanceJournalEntry (enhanceJournalEntry entry data) data).nextSteps
         = (entry.nextSteps
             ++ ["Review pending EUDB compliance requirements",
                 "Follow up on architecture review feedback"])
             ++ ["Review pending EUDB compliance requirements",
                 "Follow up on architecture review feedback"]
       ∧ 2 ≤ (enhanceJournalEntry (enhanceJournalEntry entry data) data).nextSteps.count
               "Review pending EUDB compliance requirements"
       ∧ 2 ≤ (enhanceJournalEntry (enhanceJournalEntry entry data) data).nextSteps.count
               "Follow up on architecture review feedback"
       ∧ (enhanceJournalEntry (enhanceJournalEntry entry data) data).mood
           = (enhanceJournalEntry entry data).mood)
    ∧ (enhanceJournalEntry (enhanceJournalEntry demoEntry demoData) demoData).nextSteps
        ≠ (enhanceJournalEntry demoEntry demoData).nextSteps := by
  constructor
  · intro entry data
    have hshape : (enhanceJournalEntry (enhanceJournalEntry entry data) data).nextSteps
        = (entry.nextSteps
            ++ ["Review pending EUDB compliance requirements",
                "Follow up on architecture review feedback"])
            ++ ["Review pending EUDB compliance requirements",
                "Follow up on architecture review feedback"] := rfl
    have hc1 : (["Review pending EUDB compliance requirements",
                 "Follow up on architecture review feedback"] : List String).count
                "Review pending EUDB compliance requirements" = 1 := by decide
    have hc2 : (["Review pending EUDB compliance requirements",
                 "Follow up on architecture review feedback"] : List String).count
                "Follow up on architecture review feedback" = 1 := by decide
    refine ⟨hshape, ?_, ?_, rfl⟩
    · rw [hshape, List.count_append, List.count_append, hc1]
      omega
    · rw [hshape, List.count_append, List.count_append, hc2]
      omega
  · decide

/-- Claim C10: enhanceJournalEntry changes only accomplishments, nextSteps,
notes and mood; the date, dayOfWeek, workItems buckets, pullRequests,
meetings and challenges of the result equal those of the input entry. -/
theorem claim_C10 (entry : JournalEntry) (data : RawData) :
    (enhanceJournalEntry entry data).date = entry.date
    ∧ (enhanceJournalEntry entry data).dayOfWeek = entry.dayOfWeek
    ∧ (enhanceJournalEntry entry data).workItems = entry.workItems
    ∧ (enhanceJournalEntry entry data).pullRequests = entry.pullRequests
    ∧ (enhanceJournalEntry entry data).meetings = entry.meetings
    ∧ (enhanceJournalEntry entry data).challenges = entry.challenges :=
  ⟨rfl, rfl, rfl, rfl, rfl, rfl⟩

/-- JS truthiness of an optional string: undefined and the empty string are
falsy, everything else truthy. -/
def jsTruthy (tags : Option String) : Bool :=
  match tags with
  | none => false
  | some s => !(s == "")

/-- The join call of the template bullets. The compiled source writes the
separator as a double-escaped newline, so the runtime separator is the two
literal characters backslash and n. -/
def bulletJoin (lines : List String) : String :=
  String.intercalate "\\n" lines

/-- One work-item bullet of the markdown template, including the optional
tags suffix guarded by JS truthiness of the tags value. -/
def workItemLine (item : WorkItem) : String :=
  "- **" ++ item.workItemType ++ " #" ++ toString item.id ++ "**: " ++ item.title
    ++ (if jsTruthy item.tags then "\\n  _Tags: " ++ item.tags.getD "" ++ "_" else "")

/-- A work-item subsection: the placeholder when empty, else joined bullets. -/
def workItemsBlock (items : List WorkItem) (placeholder : String) : String :=
  if items.length == 0 then placeholder else bulletJoin (items.map workItemLine)

/-- One pull-request bullet of the markdown template. -/
def prLine (pr : PullRequest) : String :=
  "- **PR #" ++ toString pr.id ++ "**: " ++ pr.title ++ " - " ++ pr.status

/-- The pull-request section: placeholder when empty, else joined bullets. -/
def prBlock (prs : List PullRequest) : String :=
  if prs.length == 0 then "_No active pull requests_" else bulletJoin (prs.map prLine)

/-- One meeting bullet. The template interpolates the field named time, but
meeting records are shaped with title, startTime, endTime, attendeeCount and
type only, so the member access yields the JS undefined value, which the
template literal renders as the text undefined. -/
def meetingLine (meeting : Meeting) : String :=
  "- undefined: " ++ meeting.title

/-- The meetings section: placeholder when empty, else joined bullets. -/
def meetingsSection (meetings : List Meeting) : String :=
  if meetings.length == 0 then "_No meetings tracked_" else bulletJoin (meetings.map meetingLine)

/-- A bulleted string-list section with its placeholder. -/
def stringListBlock (xs : List String) (placeholder : String) : String :=
  if xs.length == 0 then placeholder else bulletJoin (xs.map (fun item => "- " ++ item))

/-- The notes section body: the notes, or the placeholder when the notes
string is empty, mirroring the JS or-else on a falsy empty string. -/
def notesBlock (notes : String) : String :=
  if notes == "" then "_Add any additional notes or thoughts here_" else notes

/-- DailyJournalGenerator.generateMarkdown. The generation timestamp, read
from the wall clock in the source, is passed in as nowIso. Real newlines of
the multi-line template literal stay real newlines; the bullet joins and the
tags suffix keep their double-escaped literal backslash-n form. -/
def generateMarkdown (nowIso : String) (entry : JournalEntry) : String :=
  "# Daily Journal - " ++ entry.date ++ " (" ++ entry.dayOfWeek ++ ")\n\n"
    ++ "## 📋 Work Items Status\n\n### 🔄 In Progress\n"
    ++ workItemsBlock entry.workItems.inProgress "_No items in progress_"
    ++ "\n\n### 📂 Open Items\n"
    ++ workItemsBlock entry.workItems.openItems "_No open items_"
    ++ "\n\n### ⏸️ Pending Items\n"
    ++ workItemsBlock entry.workItems.pending "_No pending items_"
    ++ "\n\n## 🔀 Pull Requests\n"
    ++ prBlock entry.pullRequests
    ++ "\n\n## 📅 Meetings & Events\n"
    ++ meetingsSection entry.meetings
    ++ "\n\n## ✅ Accomplishments\n"
    ++ stringListBlock entry.accomplishments "_Add your accomplishments here_"
    ++ "\n\n## 🚧 Challenges\n"
    ++ stringListBlock entry.challenges "_Add any challenges you faced_"
    ++ "\n\n## 🎯 Next Steps\n"
    ++ stringListBlock entry.nextSteps "_Add your planned next steps_"
    ++ "\n\n## 😊 Mood: " ++ entry.mood
    ++ "\n\n## 📝 Notes\n"
    ++ notesBlock entry.notes
    ++ "\n\n---\n_Generated on " ++ nowIso ++ "_\n"

/-- Infix scan on character lists: does the pattern occur contiguously. -/
def isInfixCL (pat : List Char) : List Char → Bool
  | [] => pat.isEmpty
  | c :: rest => pat.isPrefixOf (c :: rest) || isInfixCL pat rest

/-- Substring test used to state facts about rendered output. -/
def strContains (s pat : String) : Bool :=
  isInfixCL pat.toList s.toList

/-- A journal directory modelled as an association list from file name to
file content. -/
abbrev Dir := List (String × String)

/-- Writing a file: the name now maps to the new content, any previous file
of that name is gone, all other files are untouched. -/
def fsWriteFile (d : Dir) (name content : String) : Dir :=
  (name, content) :: d.filter (fun p => p.1 != name)

/-- Existence test on the modelled directory. -/
def fsExists (d : Dir) (name : String) : Bool :=
  d.any (fun p => p.1 == name)

/-- Reading a file; the source only reads after an existence check, so the
default for a missing name is never observed. -/
def fsReadFileSync (d : Dir) (name : String) : String :=
  ((d.find? (fun p => p.1 == name)).map Prod.snd).getD ""

/-- DailyJournalGenerator.saveEntry: render the entry, write it to the file
named from the entry date inside the journal directory, return the path. -/
def saveEntry (journalDir nowIso : String) (d : Dir) (entry : JournalEntry) : Dir × String :=
  let filename := "journal-" ++ entry.date ++ ".md"
  let filepath := journalDir ++ "/" ++ filename
  let markdown := generateMarkdown nowIso entry
  (fsWriteFile d filename markdown, filepath)

/-- First-occurrence replacement on character lists, the semantics of the JS
string replace with a string pattern. -/
def replaceFirstAux (pat repl : List Char) : List Char → List Char
  | [] => []
  | c :: rest =>
    if pat.isPrefixOf (c :: rest) then repl ++ (c :: rest).drop pat.length
    else c :: replaceFirstAux pat repl rest

/-- JS replace with a string pattern: only the first occurrence changes. -/
def replaceFirst (s pat repl : String) : String :=
  String.mk (replaceFirstAux pat.toList repl.toList s.toList)

/-- JS startsWith on strings. -/
def jsStartsWith (s pat : String) : Bool :=
  pat.toList.isPrefixOf s.toList

/-- JS endsWith on strings. -/
def jsEndsWith (s pat : String) : Bool :=
  pat.toList.isSuffixOf s.toList

/-- DailyJournalGenerator.listEntries: take the file names, keep those with
the journal prefix and markdown suffix, strip the first occurrence of each,
sort ascending and reverse, so the most recent date comes first. -/
def listEntries (d : Dir) : List String :=
  let files := ((d.map Prod.fst).filter
      (fun file => jsStartsWith file "journal-" && jsEndsWith file ".md")).map
    (fun file => replaceFirst (replaceFirst file "journal-" "") ".md" "")
  (List.insertionSort (fun a b : String => a ≤ b) files).reverse

/-- DailyJournalGenerator.loadEntry: absence signal when no file exists for
the date, else a degraded entry carrying the raw content in notes. The day
of week is computed in the source from the parsed date; that host-provided
conversion is passed in as dow. -/
def loadEntry (dow : String → String) (d : Dir) (date : String) : Option JournalEntry :=
  let filename := "journal-" ++ date ++ ".md"
  if fsExists d filename = false then none
  else
    let content := fsReadFileSync d filename
    some { date := date
           dayOfWeek := dow date
           workItems := ⟨[], [], []⟩
           pullRequests := []
           meetings := []
           accomplishments := []
           challenges := []
           nextSteps := []
           mood := "unknown"
           notes := content }

/-- The loop body of calculateStreakDays: walk the listed dates with their
position index, counting while the floored day difference from now equals
the index, stopping at the first mismatch. The host date parser is passed in
as parse, the current instant in epoch milliseconds as todayMs. -/
def streakGo (parse : String → Int) (todayMs : Int) : List String → Nat → Nat
  | [], _ => 0
  | e :: rest, i =>
    let dayDiff := (todayMs - parse e).fdiv 86400000
    if dayDiff == (i : Int) then streakGo parse todayMs rest (i + 1) + 1
    else 0

/-- MCPJournalIntegrator.calculateStreakDays. -/
def calculateStreakDays (parse : String → Int) (todayMs : Int) (entries : List String) : Nat :=
  if entries.length == 0 then 0
  else streakGo parse todayMs entries 0

/-- Spec-side streak reading: the length of the longest prefix of the dates,
paired with their indices, on which the age in whole days equals the index. -/
def streakMatchingRunSpec (parse : String → Int) (todayMs : Int) (entries : List String) : Nat :=
  ((entries.enum).takeWhile
    (fun p => (todayMs - parse p.2).fdiv 86400000 == (p.1 : Int))).length

/-- Concrete date parser for the streak examples, mapping the three sample
dates to their UTC midnight epoch milliseconds. -/
def demoParse : String → Int := fun s =>
  if s == "2025-10-11" then 20372 * 86400000
  else if s == "2025-10-10" then 20371 * 86400000
  else if s == "2025-10-08" then 20369 * 86400000
  else 0

/-- Concrete current instant for the streak examples: one hour into the day
of the first sample date. -/
def demoTodayMs : Int := 20372 * 86400000 + 3600000

/-- Claim C4 evidence: at a concrete entry with empty raw data the enhanced
notes are the productivity line, then the two literal characters backslash
and n twice over, then the prior notes; they are not the claimed blank-line
join, whose separator is two real newline characters. -/
theorem claim_C4_code_evaluation :
    (enhanceJournalEntry demoEntry demoData).notes
      = "Productivity Overview: 0/0 work items active, 0 meetings scheduled\\n\\nprior notes"
    ∧ (enhanceJournalEntry demoEntry demoData).notes
      ≠ "Productivity Overview: 0/0 work items active, 0 meetings scheduled\n\nprior notes" := by
  constructor
  · rfl
  · decide

set_option maxRecDepth 40000 in
/-- Claim C5 evidence: the meetings section renders one bullet per meeting,
but the time position holds the text undefined because the template reads a
field absent from the meeting record shape; the bullet for a concrete
meeting does not contain its startTime, while the empty-list placeholder is
as specified and the full rendering contains the undefined bullet. -/
theorem claim_C5_code_evaluation :
    meetingsSection [demoMeeting] = "- undefined: Daily Standup - ACS Team"
    ∧ strContains (meetingsSection [demoMeeting]) demoMeeting.startTime = false
    ∧ meetingsSection [] = "_No meetings tracked_"
    ∧ strContains (generateMarkdown "2025-10-11T00:00:00.000Z"
        { demoEntry with meetings := [demoMeeting] })
        "- undefined: Daily Standup - ACS Team" = true := by
  refine ⟨rfl, by decide, rfl, by decide⟩

/-- The streak loop from start index i measures the matching prefix of the
dates paired with indices from i. -/
theorem streakGo_eq (parse : String → Int) (todayMs : Int) (l : List String) :
    ∀ i : Nat, streakGo parse todayMs l i
      = ((l.enumFrom i).takeWhile
          (fun p => (todayMs - parse p.2).fdiv 86400000 == (p.1 : Int))).length := by
  induction l with
  | nil => intro i; rfl
  | cons e rest ih =>
    intro i
    cases h : ((todayMs - parse e).fdiv 86400000 == (i : Int)) with
    | true => simp [streakGo, List.enumFrom, List.takeWhile, h, ih (i + 1)]
    | false => simp [streakGo, List.enumFrom, List.takeWhile, h]

/-- Claim C7: calculateStreakDays returns the length of the longest prefix
of the listed dates on which the age in whole days from now equals the
position index, stopping at the first gap or mismatch; for the sample list
today, yesterday, three days ago the streak is 2, and for the empty list it
is 0. -/
theorem claim_C7 :
    (∀ (parse : String → Int) (todayMs : Int) (entries : List String),
       calculateStreakDays parse todayMs entries = streakMatchingRunSpec parse todayMs entries)
    ∧ calculateStreakDays demoParse demoTodayMs ["2025-10-11", "2025-10-10", "2025-10-08"] = 2
    ∧ calculateStreakDays demoParse demoTodayMs [] = 0 := by
  refine ⟨?_, by decide, rfl⟩
  intro parse todayMs entries
  cases entries with
  | nil => rfl
  | cons e rest =>
    have hcalc : calculateStreakDays parse todayMs (e :: rest)
        = streakGo parse todayMs (e :: rest) 0 := by
      simp [calculateStreakDays]
    rw [hcalc, streakGo_eq]
    rfl

/-- Character list of an appended string. -/
theorem toList_append : ∀ (a b : String), (a ++ b).toList = a.toList ++ b.toList
  | ⟨_⟩, ⟨_⟩ => rfl

/-- A list is a prefix of itself followed by anything. -/
theorem isPrefixOf_append_self (p rest : List Char) : p.isPrefixOf (p ++ rest) = true := by
  induction p with
  | nil => cases rest <;> rfl
  | cons c p ih =>
    show ((c == c) && p.isPrefixOf (p ++ rest)) = true
    simp [ih]

/-- A list is a suffix of anything followed by itself. -/
theorem isSuffixOf_append_self (s p : List Char) : p.isSuffixOf (s ++ p) = true := by
  show p.reverse.isPrefixOf (s ++ p).reverse = true
  rw [List.reverse_append]
  exact isPrefixOf_append_self _ _

/-- Replacing the first occurrence of a nonempty pattern that sits at the
very front erases exactly that front copy. -/
theorem replaceFirstAux_front (pat repl rest : List Char) (hne : pat ≠ []) :
    replaceFirstAux pat repl (pat ++ rest) = repl ++ rest := by
  cases pat with
  | nil => exact absurd rfl hne
  | cons c p =>
    have hpre : (c :: p).isPrefixOf (c :: (p ++ rest)) = true :=
      isPrefixOf_append_self (c :: p) rest
    show replaceFirstAux (c :: p) repl (c :: (p ++ rest)) = repl ++ rest
    simp only [replaceFirstAux, hpre, if_true]
    rw [List.length_cons, List.drop_succ_cons, List.drop_left]

/-- When the body contains no dot, the first occurrence of the markdown
suffix in body-plus-suffix is the final suffix, so replacing it by nothing
recovers the body. -/
theorem replaceFirstAux_no_dot (l : List Char) (h : ∀ c ∈ l, c ≠ '.') :
    replaceFirstAux ['.', 'm', 'd'] [] (l ++ ['.', 'm', 'd']) = l := by
  induction l with
  | nil => rfl
  | cons c l ih =>
    have hc : c ≠ '.' := h c (List.mem_cons_self c l)
    have hbe : ('.' == c) = false := beq_eq_false_iff_ne.mpr (fun hh => hc hh.symm)
    have hcond : (['.', 'm', 'd'].isPrefixOf (c :: (l ++ ['.', 'm', 'd']))) = false := by
      show (('.' == c) && (['m', 'd'].isPrefixOf (l ++ ['.', 'm', 'd']))) = false
      rw [hbe]
      rfl
    show replaceFirstAux ['.', 'm', 'd'] [] (c :: (l ++ ['.', 'm', 'd'])) = c :: l
    simp only [replaceFirstAux, hcond, if_false]
    rw [ih (fun x hx => h x (List.mem_cons_of_mem c hx))]
    simp

/-- Stripping the journal prefix and markdown suffix from a well-formed
journal file name recovers the date, provided the date has no dot. -/
theorem strip_journal_name (date : String) (h : ∀ c ∈ date.toList, c ≠ '.') :
    replaceFirst (replaceFirst ("journal-" ++ date ++ ".md") "journal-" "") ".md" "" = date := by
  have htl : ("journal-" ++ date ++ ".md").toList
      = "journal-".toList ++ (date.toList ++ ".md".toList) := by
    rw [toList_append, toList_append, List.append_assoc]
  have hinner : replaceFirst ("journal-" ++ date ++ ".md") "journal-" ""
      = String.mk (date.toList ++ ".md".toList) := by
    unfold replaceFirst
    rw [show ("" : String).toList = [] from rfl, htl,
      replaceFirstAux_front _ _ _ (by decide), List.nil_append]
  rw [hinner]
  unfold replaceFirst
  rw [show (String.mk (date.toList ++ ".md".toList)).toList = date.toList ++ ".md".toList from rfl,
    show ("" : String).toList = [] from rfl,
    show (".md" : String).toList = ['.', 'm', 'd'] from rfl,
    replaceFirstAux_no_dot date.toList h]
  rfl

/-- A well-formed journal file name passes the listing filter. -/
theorem journal_name_pred (date : String) :
    (jsStartsWith ("journal-" ++ date ++ ".md") "journal-"
      && jsEndsWith ("journal-" ++ date ++ ".md") ".md") = true := by
  have h1 : jsStartsWith ("journal-" ++ date ++ ".md") "journal-" = true := by
    unfold jsStartsWith
    rw [toList_append, toList_append, List.append_assoc]
    exact isPrefixOf_append_self _ _
  have h2 : jsEndsWith ("journal-" ++ date ++ ".md") ".md" = true := by
    unfold jsEndsWith
    rw [toList_append]
    exact isSuffixOf_append_self _ _
  rw [h1, h2]
  rfl

/-- After a write, filtering the directory by the written name yields the
single freshly written file. -/
theorem fsWriteFile_filter_self (d : Dir) (name content : String) :
    (fsWriteFile d name content).filter (fun p => p.1 == name) = [(name, content)] := by
  unfold fsWriteFile
  rw [List.filter_cons, if_pos (by simp)]
  rw [List.filter_eq_nil_iff.mpr ?_]
  · intro p hp
    have h2 := (List.mem_filter.mp hp).2
    simp only [bne_iff_ne, ne_eq] at h2
    simp [h2]

/-- The listing is always a permutation of the stripped matching names. -/
theorem listEntries_perm (d : Dir) :
    (listEntries d).Perm
      (((d.map Prod.fst).filter
          (fun file => jsStartsWith file "journal-" && jsEndsWith file ".md")).map
        (fun file => replaceFirst (replaceFirst file "journal-" "") ".md" "")) := by
  unfold listEntries
  exact (List.reverse_perm _).trans (List.perm_insertionSort _ _)

/-- The listing is always sorted descending. -/
theorem listEntries_sorted (d : Dir) :
    List.Pairwise (fun a b : String => b ≤ a) (listEntries d) := by
  unfold listEntries
  exact List.pairwise_reverse.mpr (List.sorted_insertionSort _ _)

/-- A file name present in the directory and passing the listing filter
contributes its stripped form to the listing. -/
theorem mem_listEntries (d : Dir) (file : String)
    (hmem : file ∈ d.map Prod.fst)
    (hpred : (jsStartsWith file "journal-" && jsEndsWith file ".md") = true) :
    replaceFirst (replaceFirst file "journal-" "") ".md" "" ∈ listEntries d := by
  unfold listEntries
  apply List.mem_reverse.mpr
  apply (List.perm_insertionSort _ _).mem_iff.mpr
  exact List.mem_map_of_mem _ (List.mem_filter.mpr ⟨hmem, hpred⟩)

/-- Claim C8: saving writes the render to the file named from the entry
date in the journal directory and returns that path; saving twice for the
same date leaves exactly one file for that date, holding the second render;
afterwards the listing contains the saved date, is sorted descending, and
consists of all stored dates. The date is assumed to be in calendar shape,
made of digits and hyphens. -/
theorem claim_C8 (journalDir nowIso1 nowIso2 : String) (d : Dir) (e1 e2 : JournalEntry)
    (h1 : e1.date = e2.date)
    (h2 : ∀ c ∈ e2.date.toList, c.isDigit = true ∨ c = '-') :
    (saveEntry journalDir nowIso2 (saveEntry journalDir nowIso1 d e1).1 e2).2
      = journalDir ++ "/" ++ ("journal-" ++ e2.date ++ ".md")
    ∧ ((saveEntry journalDir nowIso2 (saveEntry journalDir nowIso1 d e1).1 e2).1).filter
        (fun p => p.1 == "journal-" ++ e1.date ++ ".md")
      = [("journal-" ++ e2.date ++ ".md", generateMarkdown nowIso2 e2)]
    ∧ e2.date ∈ listEntries (saveEntry journalDir nowIso2 (saveEntry journalDir nowIso1 d e1).1 e2).1
    ∧ List.Pairwise (fun a b : String => b ≤ a)
        (listEntries (saveEntry journalDir nowIso2 (saveEntry journalDir nowIso1 d e1).1 e2).1)
    ∧ (listEntries (saveEntry journalDir nowIso2 (saveEntry journalDir nowIso1 d e1).1 e2).1).Perm
        (((((saveEntry journalDir nowIso2 (saveEntry journalDir nowIso1 d e1).1 e2).1).map
              Prod.fst).filter
            (fun file => jsStartsWith file "journal-" && jsEndsWith file ".md")).map
          (fun file => replaceFirst (replaceFirst file "journal-" "") ".md" "")) := by
  have hnodot : ∀ c ∈ e2.date.toList, c ≠ '.' := by
    intro c hc
    rcases h2 c hc with hd | hd
    · intro hcon
      rw [hcon] at hd
      exact absurd hd (by decide)
    · intro hcon
      rw [hcon] at hd
      exact absurd hd (by decide)
  refine ⟨rfl, ?_, ?_, listEntries_sorted _, listEntries_perm _⟩
  · rw [h1]
    exact fsWriteFile_filter_self _ _ _
  · have hm : ("journal-" ++ e2.date ++ ".md")
        ∈ ((saveEntry journalDir nowIso2 (saveEntry journalDir nowIso1 d e1).1 e2).1).map
            Prod.fst :=
      List.mem_cons_self _ _
    have hmem := mem_listEntries _ _ hm (journal_name_pred e2.date)
    rwa [strip_journal_name e2.date hnodot] at hmem

/-- Witness for claim C8: after saving a concrete entry twice into an empty
store, the listing contains the saved date. -/
theorem claim_C8_witness :
    "2025-10-11" ∈ listEntries
      (saveEntry "journal-entries" "T2"
        (saveEntry "journal-entries" "T1" [] demoEntry).1 demoEntry).1 :=
  (claim_C8 "journal-entries" "T1" "T2" [] demoEntry demoEntry rfl (by decide)).2.2.1

/-- Claim C9: loadEntry returns the absence signal exactly when no file
exists for the date; otherwise it returns the degraded entry whose notes
hold the raw file content, whose mood is unknown, and whose work-item
buckets, pullRequests, meetings, accomplishments, challenges and nextSteps
are all empty. -/
theorem claim_C9 (dow : String → String) (d : Dir) (date : String) :
    (loadEntry dow d date = none ↔ fsExists d ("journal-" ++ date ++ ".md") = false)
    ∧ ∀ e, loadEntry dow d date = some e →
        e.notes = fsReadFileSync d ("journal-" ++ date ++ ".md")
        ∧ e.mood = "unknown"
        ∧ e.workItems = ⟨[], [], []⟩
        ∧ e.pullRequests = []
        ∧ e.meetings = []
        ∧ e.accomplishments = []
        ∧ e.challenges = []
        ∧ e.nextSteps = [] := by
  have hchar : loadEntry dow d date
      = if fsExists d ("journal-" ++ date ++ ".md") = false then none
        else some { date := date, dayOfWeek := dow date, workItems := ⟨[], [], []⟩,
                    pullRequests := [], meetings := [], accomplishments := [],
                    challenges := [], nextSteps := [], mood := "unknown",
                    notes := fsReadFileSync d ("journal-" ++ date ++ ".md") } := rfl
  by_cases h : fsExists d ("journal-" ++ date ++ ".md") = false
  · rw [hchar, if_pos h]
    refine ⟨by simp [h], ?_⟩
    intro e he
    cases he
  · rw [hchar, if_neg h]
    refine ⟨by simp [h], ?_⟩
    intro e he
    cases he
    exact ⟨rfl, rfl, rfl, rfl, rfl, rfl, rfl, rfl⟩

/-- A one-file store used by the load witness. -/
def c9dir : Dir := [("journal-2025-10-11.md", "hello")]

/-- The degraded entry produced by loading the witness store. -/
def c9loaded : JournalEntry :=
  { date := "2025-10-11", dayOfWeek := "Saturday", workItems := ⟨[], [], []⟩,
    pullRequests := [], meetings := [], accomplishments := [], challenges := [],
    nextSteps := [], mood := "unknown", notes := "hello" }

/-- Witness for claim C9: loading the stored date yields the degraded entry
with unknown mood and the raw content in notes. -/
theorem claim_C9_witness :
    c9loaded.mood = "unknown"
    ∧ c9loaded.notes = fsReadFileSync c9dir ("journal-" ++ "2025-10-11" ++ ".md") :=
  have h := (claim_C9 (fun _ => "Saturday") c9dir "2025-10-11").2 c9loaded (by decide)
  ⟨h.2.1, h.1⟩
